import Mathlib

/-!
Verification of the loggregator listener components.

This file shallowly embeds the two listener components of the repository:

* `metron/statsdlistener/statsdlistener.go` — the statsd line decoder
  (`parseStat`, `counterValue`, `gaugeValue`, the datagram/line loop of
  `Run`) together with its per-listener aggregation maps; and
* the relay (websocket) listener, whose implementation is not part of the
  sources here (only its test file is), and which is therefore modelled
  from the specification.

Modelling choices:
* Go `float64` values are embedded as `ℚ`.  Every numeric literal the
  grammar admits is an exact decimal, so parsing is exact; arithmetic
  (`+`, `-`, `/`) is taken exactly rather than with float rounding.
* Go maps `map[string]float64` are embedded as association lists with the
  Go zero-value convention: a lookup of an absent key yields `0`.
* Go strings are embedded as `String`/`List Char`; the inputs of interest
  are ASCII, where byte positions and character positions coincide.
* `time.Now()` timestamps are outside the model; the envelope carries the
  origin and the value metric (name, value, unit), which is everything the
  claims speak about.
-/

/-! ## The statsd regular expression

The source uses

  `([^.]+)\.([^:]+):([+-]?)(\d+(\.\d+)?)\|(ms|g|c)(\|@(\d+(\.\d+)?))?`

with `regexp.FindStringSubmatch`, i.e. leftmost-first matching, unanchored
on both sides.  For this particular pattern the preferred (greedy /
left-alternative) match at a fixed start position is forced: each greedy
piece is bounded by a character its own class excludes (`[^.]+` stops at
the `.` that `\.` must consume, `[^:]+` at the `:`, `\d+` at the non-digit
that `\|` or `\.` must consume), so backtracking can never produce a
different successful parse at the same position.  `matchAt` below performs
exactly that forced parse at one position, and `findMatch` scans start
positions left to right, as `FindStringSubmatch` does.
-/

/-- The capture groups (1, 2, 3, 4, 6, 8) of the statsd regexp, exactly the
ones `parseStat` reads; groups 5, 7 and 9 are unused by the source. -/
structure Captures where
  origin : List Char
  name : List Char
  incrementSign : List Char
  valueString : List Char
  statType : List Char
  sampleRateString : List Char
  deriving DecidableEq, Repr

/-- `\d+(\.\d+)?` — a nonempty digit run with an optional fractional part.
Returns the matched characters and the remaining input.  When a `.` follows
the integer digits but no digit follows the `.`, the optional group fails
and is skipped, exactly as the regexp engine would. -/
def matchNumber (s : List Char) : Option (List Char × List Char) :=
  let ds := s.takeWhile Char.isDigit
  let r := s.dropWhile Char.isDigit
  if ds.isEmpty then none
  else
    match r with
    | '.' :: r2 =>
      let fs := r2.takeWhile Char.isDigit
      let r3 := r2.dropWhile Char.isDigit
      if fs.isEmpty then some (ds, r)
      else some (ds ++ '.' :: fs, r3)
    | _ => some (ds, r)

/-- `([+-]?)` — an optional sign character. -/
def matchSign (s : List Char) : List Char × List Char :=
  match s with
  | c :: r => if c = '+' ∨ c = '-' then ([c], r) else ([], c :: r)
  | [] => ([], [])

/-- `(ms|g|c)` — the type token, alternatives tried left to right. -/
def matchType (s : List Char) : Option (List Char × List Char) :=
  match s with
  | 'm' :: 's' :: r => some (['m', 's'], r)
  | 'g' :: r => some (['g'], r)
  | 'c' :: r => some (['c'], r)
  | _ => none

/-- `(\|@(\d+(\.\d+)?))?` — the optional sample-rate suffix; yields the
inner capture (group 8), empty when the group does not participate. -/
def matchSample (s : List Char) : List Char :=
  match s with
  | '|' :: '@' :: r =>
    match matchNumber r with
    | some (rate, _) => rate
    | none => []
  | _ => []

/-- Attempt the statsd regexp at one start position (see the comment on the
pattern above); trailing input beyond the match is ignored, as the pattern
is unanchored on the right. -/
def matchAt (s : List Char) : Option Captures :=
  let origin := s.takeWhile (fun c => c ≠ '.')
  match s.dropWhile (fun c => c ≠ '.') with
  | '.' :: r2 =>
    if origin.isEmpty then none
    else
      let name := r2.takeWhile (fun c => c ≠ ':')
      match r2.dropWhile (fun c => c ≠ ':') with
      | ':' :: r4 =>
        if name.isEmpty then none
        else
          let sr5 := matchSign r4
          match matchNumber sr5.2 with
          | some (valueString, r6) =>
            match r6 with
            | '|' :: r7 =>
              match matchType r7 with
              | some (statType, r8) =>
                some { origin := origin, name := name, incrementSign := sr5.1,
                       valueString := valueString, statType := statType,
                       sampleRateString := matchSample r8 }
              | none => none
            | _ => none
          | none => none
      | _ => none
  | _ => none

/-- `FindStringSubmatch`: the leftmost start position at which the pattern
matches wins; `none` when no position matches. -/
def findMatch : List Char → Option Captures
  | [] => none
  | c :: rest =>
    match matchAt (c :: rest) with
    | some parts => some parts
    | none => findMatch rest

/-! ## Numbers and maps -/

/-- Numeric value of a decimal digit. -/
def digitVal (c : Char) : ℕ := c.toNat - '0'.toNat

/-- Numeric value of a digit run, most significant first. -/
def digitsVal (ds : List Char) : ℕ := ds.foldl (fun a c => 10 * a + digitVal c) 0

/-- `strconv.ParseFloat` on the strings the grammar produces
(`\d+(\.\d+)?`), taken exactly over `ℚ`. -/
def parseDecimal (s : List Char) : ℚ :=
  let ip := s.takeWhile Char.isDigit
  match s.dropWhile Char.isDigit with
  | '.' :: fs => (digitsVal ip : ℚ) + (digitsVal fs : ℚ) / (10 : ℚ) ^ fs.length
  | _ => (digitsVal ip : ℚ)

/-- Go map read with the zero-value convention: absent keys read as `0`. -/
def mapGet (m : List (String × ℚ)) (k : String) : ℚ :=
  match m.find? (fun p => p.1 = k) with
  | some p => p.2
  | none => 0

/-- Go map write: replace the binding for `k`, or append a fresh one. -/
def mapSet (m : List (String × ℚ)) (k : String) (v : ℚ) : List (String × ℚ) :=
  match m with
  | [] => [(k, v)]
  | p :: rest => if p.1 = k then (k, v) :: rest else p :: mapSet rest k v

/-! ## The listener state and the decoder -/

/-- The two per-listener aggregation maps of `StatsdListener`
(`gaugeValues` and `counterValues`, both keyed by `"origin.name"`). -/
structure AggregationState where
  gaugeValues : List (String × ℚ)
  counterValues : List (String × ℚ)
  deriving DecidableEq, Repr

/-- The maps a fresh `NewStatsdListener` starts with. -/
def emptyState : AggregationState := { gaugeValues := [], counterValues := [] }

/-- The `events.ValueMetric` fields `parseStat` fills in. -/
structure ValueMetric where
  name : String
  value : ℚ
  unit : String
  deriving DecidableEq, Repr

/-- The `events.Envelope` fields `parseStat` fills in (the wall-clock
timestamp is outside the model). -/
structure Envelope where
  origin : String
  valueMetric : ValueMetric
  deriving DecidableEq, Repr

-- Equality of decode results is decidable, so the decoder can be run on
-- concrete lines inside proofs.
deriving instance DecidableEq for Except

/-- `StatsdListener.counterValue`: cumulative update of the counter map. -/
def counterValue (st : AggregationState) (origin name : String) (value : ℚ)
    (incrementSign : String) : ℚ × AggregationState :=
  let key := origin ++ "." ++ name
  let oldVal := mapGet st.counterValues key
  let newVal := if incrementSign = "-" then oldVal - value else oldVal + value
  (newVal, { st with counterValues := mapSet st.counterValues key newVal })

/-- `StatsdListener.gaugeValue`: absolute set without a sign, signed delta
with one. -/
def gaugeValue (st : AggregationState) (origin name : String) (value : ℚ)
    (incrementSign : String) : ℚ × AggregationState :=
  let key := origin ++ "." ++ name
  let oldVal := mapGet st.gaugeValues key
  let newVal :=
    if incrementSign = "+" then oldVal + value
    else if incrementSign = "-" then oldVal - value
    else value
  (newVal, { st with gaugeValues := mapSet st.gaugeValues key newVal })

/-- `StatsdListener.parseStat`: run the regexp, apply the sample-rate
correction, dispatch on the type token.  The Go method mutates the
receiver's maps; here the updated state is returned alongside the result,
unchanged in the error case. -/
def parseStat (st : AggregationState) (data : String) :
    Except String Envelope × AggregationState :=
  match findMatch data.data with
  | none =>
    (Except.error ("Input line '" ++ data ++ "' was not a valid statsd line."), st)
  | some parts =>
    let origin := String.mk parts.origin
    let name := String.mk parts.name
    let incrementSign := String.mk parts.incrementSign
    let statType := String.mk parts.statType
    let value0 := parseDecimal parts.valueString
    let sampleRate : ℚ :=
      if parts.sampleRateString.isEmpty then 1 else parseDecimal parts.sampleRateString
    let value := value0 / sampleRate
    if statType = "ms" then
      (Except.ok { origin := origin,
                   valueMetric := { name := name, value := value, unit := "ms" } }, st)
    else if statType = "c" then
      let r := counterValue st origin name value incrementSign
      (Except.ok { origin := origin,
                   valueMetric := { name := name, value := r.1, unit := "counter" } }, r.2)
    else
      let r := gaugeValue st origin name value incrementSign
      (Except.ok { origin := origin,
                   valueMetric := { name := name, value := r.1, unit := "gauge" } }, r.2)

/-! ## The datagram loop of `Run` -/

/-- `bufio.ScanLines` drops one trailing carriage return from a line. -/
def dropCR (l : List Char) : List Char :=
  if l.getLast? = some '\r' then l.dropLast else l

/-- The tokens `bufio.Scanner` produces with the default `ScanLines` split:
lines separated by `'\n'`, each with a trailing `'\r'` removed; a final
newline does not produce an empty final token, and empty input produces no
tokens. -/
def scanLines (s : List Char) : List (List Char) :=
  let parts := (s.splitOn '\n').map dropCR
  if s.getLast? = some '\n' then parts.dropLast
  else if s.isEmpty then [] else parts

/-- The inner loop of `Run` over the lines of one datagram: decoded
envelopes go to the output channel in order, failing lines are logged and
skipped, and the aggregation state is threaded through. -/
def processLines : AggregationState → List String → List Envelope × AggregationState
  | st, [] => ([], st)
  | st, l :: ls =>
    match parseStat st l with
    | (Except.ok env, st') =>
      let r := processLines st' ls
      (env :: r.1, r.2)
    | (Except.error _, st') => processLines st' ls

/-- One iteration of `Run`'s read loop: split the received payload into
lines and process them. -/
def handleDatagram (st : AggregationState) (payload : String) :
    List Envelope × AggregationState :=
  processLines st ((scanLines payload.data).map String.mk)

/-- `Run`'s read loop over a sequence of received datagrams; the envelopes
of successive datagrams are emitted in receive order. -/
def runDatagrams : AggregationState → List String → List Envelope × AggregationState
  | st, [] => ([], st)
  | st, d :: ds =>
    let r := handleDatagram st d
    let r2 := runDatagrams r.2 ds
    (r.1 ++ r2.1, r2.2)

/-! ## Well-formed statsd lines

The pieces a line of the grammar `origin.name:[sign]value|type[|@rate]` is
assembled from, used to state the per-line decoding theorems. -/

/-- `\d+` — a nonempty digit string. -/
def IsIntString (v : List Char) : Prop := v ≠ [] ∧ ∀ c ∈ v, c.isDigit = true

/-- `\d+(\.\d+)?` — the shape of the value and sample-rate fields. -/
def IsDecimal (v : List Char) : Prop :=
  IsIntString v ∨ ∃ ip fp, IsIntString ip ∧ IsIntString fp ∧ v = ip ++ '.' :: fp

/-- The optional `|@rate` suffix of a line. -/
def sampleSuffix : Option (List Char) → List Char
  | none => []
  | some r => '|' :: '@' :: r

/-- A statsd line assembled from its grammatical fields:
`origin.name:[sign]value|type[|@sampleRate]`. -/
def renderLine (o n sg v ty : List Char) (sr : Option (List Char)) : List Char :=
  o ++ '.' :: (n ++ ':' :: (sg ++ (v ++ '|' :: (ty ++ sampleSuffix sr))))

/-! ## The relay listener, modelled from the spec

The implementation of the relay (websocket) listener
(`trafficcontroller/listener/websocket_listener.go`) is not among the
sources here; only its test file is.  The state machine below is therefore
modelled from the specification (its §4.3 contract and state machine,
exercised by the test file's scenarios). -/

/-- A raw binary frame payload (byte values). -/
abbrev Bytes := List Nat

/-- Severity of a log record; the diagnostic frame uses the error level. -/
inductive Severity where
  | info
  | err
  deriving DecidableEq, Repr

/-- A self-describing log-record frame. -/
structure LogRecord where
  sourceName : String
  severity : Severity
  message : String
  deriving DecidableEq, Repr

/-- Modelled from the spec: the diagnostic log-record the relay listener
synthesizes when a read from the connection fails (source tag `LGR`, error
severity, the fixed proxy message). -/
def errorDiagnostic : LogRecord :=
  { sourceName := "LGR", severity := Severity.err,
    message := "proxy: error connecting to a loggregator server" }

/-- A frame on the relay's output queue: a relayed raw frame or a
synthesized log record. -/
inductive RelayFrame where
  | data (payload : Bytes)
  | log (rec : LogRecord)
  deriving DecidableEq, Repr

/-- Whether a queue entry is a diagnostic (log-record) frame. -/
def RelayFrame.isLog : RelayFrame → Bool
  | RelayFrame.data _ => false
  | RelayFrame.log _ => true

/-- The relay listener's phases: `Idle/Connecting → Relaying → Stopped |
Failed`. -/
inductive RelayPhase where
  | connecting
  | relaying
  | stopped
  | failed
  deriving DecidableEq, Repr

/-- Observable state of one relay listener run: its phase, the frames
pushed to the output queue, the error `start` returns, whether the stop
signal was ever triggered, and whether the listener closed the output
queue. -/
structure RelayState where
  phase : RelayPhase
  queue : List RelayFrame
  retErr : Option String
  stopTriggered : Bool
  queueClosed : Bool
  deriving DecidableEq, Repr

/-- External events one relay listener run reacts to. -/
inductive RelayEvent where
  | dialOk
  | dialErr (msg : String)
  | frame (payload : Bytes)
  | cancel
  | readErr
  deriving DecidableEq, Repr

/-- Modelled from the spec: one transition of the relay listener.  A dial
error is returned synchronously; inbound frames are relayed verbatim in
order; cancellation stops the run silently; a read error appends exactly
one diagnostic record and ends the run with no returned error.  The
terminal phases absorb all further events (the listener is not reusable).
The listener itself never triggers the stop signal and never closes the
output queue. -/
def relayStep (s : RelayState) (e : RelayEvent) : RelayState :=
  match s.phase, e with
  | RelayPhase.connecting, RelayEvent.dialOk => { s with phase := RelayPhase.relaying }
  | RelayPhase.connecting, RelayEvent.dialErr m =>
    { s with phase := RelayPhase.failed, retErr := some m }
  | RelayPhase.relaying, RelayEvent.frame b =>
    { s with queue := s.queue ++ [RelayFrame.data b] }
  | RelayPhase.relaying, RelayEvent.cancel =>
    { s with phase := RelayPhase.stopped, stopTriggered := true }
  | RelayPhase.relaying, RelayEvent.readErr =>
    { s with phase := RelayPhase.failed,
             queue := s.queue ++ [RelayFrame.log errorDiagnostic] }
  | _, _ => s

/-- The state a relay listener run starts in. -/
def relayInit : RelayState :=
  { phase := RelayPhase.connecting, queue := [], retErr := none,
    stopTriggered := false, queueClosed := false }

/-- Modelled from the spec: a whole run of the relay listener, as the fold
of its transitions over the events it observes. -/
def relayStart (events : List RelayEvent) : RelayState :=
  events.foldl relayStep relayInit

/-! ## Helper lemmas -/

theorem IsDecimal.ne_nil {v : List Char} (h : IsDecimal v) : v ≠ [] := by
  rcases h with ⟨h1, _⟩ | ⟨ip, fp, hip, _, rfl⟩
  · exact h1
  · simp [hip.1]

/-- `matchNumber` consumes exactly a decimal when the next character can
continue neither the digit run nor a fractional part. -/
theorem matchNumber_append_stop {v : List Char} (hv : IsDecimal v)
    {y : Char} (hy : y.isDigit = false) (hy2 : y ≠ '.') (ys : List Char) :
    matchNumber (v ++ y :: ys) = some (v, y :: ys) := by
  rcases hv with ⟨h1, h2⟩ | ⟨ip, fp, hip, hfp, rfl⟩
  · unfold matchNumber
    rw [List.takeWhile_append_of_pos h2, List.dropWhile_append_of_pos h2,
        List.takeWhile_cons_of_neg, List.dropWhile_cons_of_neg]
    · simp only [List.append_nil, List.isEmpty_eq_false.mpr h1, Bool.false_eq_true,
        if_false]
      split
      · rename_i r2 heq
        exact absurd (List.cons.injEq .. ▸ heq).1 hy2
      · rfl
    · simp [hy]
    · simp [hy]
  · unfold matchNumber
    rw [List.append_assoc, List.cons_append, List.takeWhile_append_of_pos hip.2,
        List.dropWhile_append_of_pos hip.2, List.takeWhile_cons_of_neg,
        List.dropWhile_cons_of_neg]
    · simp only [List.append_nil, List.isEmpty_eq_false.mpr hip.1, Bool.false_eq_true,
        if_false]
      rw [List.takeWhile_append_of_pos hfp.2, List.dropWhile_append_of_pos hfp.2,
          List.takeWhile_cons_of_neg, List.dropWhile_cons_of_neg]
      · simp [List.isEmpty_eq_false.mpr hfp.1]
      · simp [hy]
      · simp [hy]
    · simp
    · simp

/-- `matchNumber` consumes a decimal that runs to the end of the input. -/
theorem matchNumber_all {v : List Char} (hv : IsDecimal v) :
    matchNumber v = some (v, []) := by
  rcases hv with ⟨h1, h2⟩ | ⟨ip, fp, hip, hfp, rfl⟩
  · unfold matchNumber
    have hd : v.dropWhile Char.isDigit = [] := List.dropWhile_eq_nil_iff.mpr h2
    rw [List.takeWhile_eq_self_iff.mpr h2, hd]
    simp only [List.isEmpty_eq_false.mpr h1, Bool.false_eq_true, if_false]
  · unfold matchNumber
    rw [List.takeWhile_append_of_pos hip.2, List.dropWhile_append_of_pos hip.2,
        List.takeWhile_cons_of_neg, List.dropWhile_cons_of_neg]
    · simp only [List.append_nil, List.isEmpty_eq_false.mpr hip.1, Bool.false_eq_true,
        if_false]
      have hd : fp.dropWhile Char.isDigit = [] := List.dropWhile_eq_nil_iff.mpr hfp.2
      rw [List.takeWhile_eq_self_iff.mpr hfp.2, hd]
      simp [List.isEmpty_eq_false.mpr hfp.1]
    · simp
    · simp

/-- The sample suffix always yields its inner capture. -/
theorem matchSample_suffix (sr : Option (List Char))
    (hr : ∀ r, sr = some r → IsDecimal r) :
    matchSample (sampleSuffix sr) = sr.getD [] := by
  cases sr with
  | none => rfl
  | some r =>
    have hd := hr r rfl
    simp only [sampleSuffix, matchSample, matchNumber_all hd, Option.getD_some]

/-- The preferred match of the statsd pattern at the start of a rendered
well-formed line captures exactly the line's fields. -/
theorem matchAt_renderLine (o n sg v ty : List Char) (sr : Option (List Char))
    (ho1 : o ≠ []) (ho2 : ∀ c ∈ o, c ≠ '.')
    (hn1 : n ≠ []) (hn2 : ∀ c ∈ n, c ≠ ':')
    (hs : sg = [] ∨ sg = ['+'] ∨ sg = ['-'])
    (hv : IsDecimal v)
    (hty : ty = ['m', 's'] ∨ ty = ['g'] ∨ ty = ['c'])
    (hr : ∀ r, sr = some r → IsDecimal r) :
    matchAt (renderLine o n sg v ty sr) =
      some { origin := o, name := n, incrementSign := sg, valueString := v,
             statType := ty, sampleRateString := sr.getD [] } := by
  have ho2' : ∀ c ∈ o, (decide (c ≠ '.')) = true := by
    intro c hc; simpa using ho2 c hc
  have hn2' : ∀ c ∈ n, (decide (c ≠ ':')) = true := by
    intro c hc; simpa using hn2 c hc
  unfold matchAt renderLine
  rw [List.takeWhile_append_of_pos ho2', List.dropWhile_append_of_pos ho2',
      List.takeWhile_cons_of_neg (by simp), List.dropWhile_cons_of_neg (by simp),
      List.append_nil]
  simp only [List.isEmpty_eq_false.mpr ho1, Bool.false_eq_true, if_false]
  rw [List.takeWhile_append_of_pos hn2', List.dropWhile_append_of_pos hn2',
      List.takeWhile_cons_of_neg (by simp), List.dropWhile_cons_of_neg (by simp),
      List.append_nil]
  simp only [List.isEmpty_eq_false.mpr hn1, Bool.false_eq_true, if_false]
  have hsign : matchSign (sg ++ (v ++ '|' :: (ty ++ sampleSuffix sr)))
      = (sg, v ++ '|' :: (ty ++ sampleSuffix sr)) := by
    rcases hs with rfl | rfl | rfl
    · obtain ⟨d, v', rfl⟩ : ∃ d v', v = d :: v' := by
        rcases hv with ⟨h1, _⟩ | ⟨ip, fp, hip, _, rfl⟩
        · exact (List.exists_cons_of_ne_nil h1).imp fun d h => h
        · rcases List.exists_cons_of_ne_nil hip.1 with ⟨d, ip', rfl⟩
          exact ⟨d, _, rfl⟩
      have hd : d.isDigit = true := by
        rcases hv with ⟨_, h2⟩ | ⟨ip, fp, hip, _, heq⟩
        · exact h2 d (by simp)
        · rcases List.exists_cons_of_ne_nil hip.1 with ⟨d', ip', rfl⟩
          have : d = d' := by simpa using congrArg (·.head?) heq
          exact this ▸ hip.2 d' (by simp)
      have h1 : ¬(d = '+' ∨ d = '-') := by
        rintro (rfl | rfl) <;> simp at hd
      simp only [List.nil_append, List.cons_append, matchSign, if_neg h1]
    · simp [matchSign]
    · simp [matchSign]
  rw [hsign, matchNumber_append_stop hv (by decide) (by decide)]
  have hty' : matchType (ty ++ sampleSuffix sr) = some (ty, sampleSuffix sr) := by
    rcases hty with rfl | rfl | rfl <;> rfl
  simp only [hty', matchSample_suffix sr hr]

/-- `FindStringSubmatch` on a rendered well-formed line: the leftmost
(position-zero) match wins and captures the line's fields. -/
theorem findMatch_renderLine (o n sg v ty : List Char) (sr : Option (List Char))
    (ho1 : o ≠ []) (ho2 : ∀ c ∈ o, c ≠ '.')
    (hn1 : n ≠ []) (hn2 : ∀ c ∈ n, c ≠ ':')
    (hs : sg = [] ∨ sg = ['+'] ∨ sg = ['-'])
    (hv : IsDecimal v)
    (hty : ty = ['m', 's'] ∨ ty = ['g'] ∨ ty = ['c'])
    (hr : ∀ r, sr = some r → IsDecimal r) :
    findMatch (renderLine o n sg v ty sr) =
      some { origin := o, name := n, incrementSign := sg, valueString := v,
             statType := ty, sampleRateString := sr.getD [] } := by
  have h := matchAt_renderLine o n sg v ty sr ho1 ho2 hn1 hn2 hs hv hty hr
  obtain ⟨c, o', rfl⟩ := List.exists_cons_of_ne_nil ho1
  have hshape : renderLine (c :: o') n sg v ty sr
      = c :: (o' ++ '.' :: (n ++ ':' :: (sg ++ (v ++ '|' :: (ty ++ sampleSuffix sr))))) := rfl
  rw [hshape] at h ⊢
  unfold findMatch
  rw [h]

/-- `parseStat` on a rendered well-formed counter line. -/
theorem parseStat_renderLine_counter (st : AggregationState) (o n sg v : List Char)
    (sr : Option (List Char))
    (ho1 : o ≠ []) (ho2 : ∀ c ∈ o, c ≠ '.')
    (hn1 : n ≠ []) (hn2 : ∀ c ∈ n, c ≠ ':')
    (hs : sg = [] ∨ sg = ['+'] ∨ sg = ['-'])
    (hv : IsDecimal v)
    (hr : ∀ r, sr = some r → IsDecimal r) :
    parseStat st (String.mk (renderLine o n sg v ['c'] sr)) =
      (let key := String.mk o ++ "." ++ String.mk n
       let cv := parseDecimal v / (sr.map parseDecimal).getD 1
       let newVal := if sg = ['-'] then mapGet st.counterValues key - cv
                     else mapGet st.counterValues key + cv
       (Except.ok { origin := String.mk o,
                    valueMetric := { name := String.mk n, value := newVal,
                                     unit := "counter" } },
        { st with counterValues := mapSet st.counterValues key newVal })) := by
  have hm := findMatch_renderLine o n sg v ['c'] sr ho1 ho2 hn1 hn2 hs hv
    (Or.inr (Or.inr rfl)) hr
  have hrate : (if (sr.getD []).isEmpty then (1 : ℚ) else parseDecimal (sr.getD []))
      = (sr.map parseDecimal).getD 1 := by
    cases sr with
    | none => rfl
    | some r => simp [List.isEmpty_eq_false.mpr (hr r rfl).ne_nil]
  unfold parseStat
  rw [show (String.mk (renderLine o n sg v ['c'] sr)).data
        = renderLine o n sg v ['c'] sr from rfl, hm]
  simp only [hrate]
  rw [if_neg (by decide), if_pos trivial]
  simp only [counterValue]
  rcases hs with rfl | rfl | rfl
  · rw [if_neg (show ¬(String.mk [] = "-") by decide),
        if_neg (show ¬(([] : List Char) = ['-']) by decide)]
  · rw [if_neg (show ¬(String.mk ['+'] = "-") by decide),
        if_neg (show ¬((['+'] : List Char) = ['-']) by decide)]
  · rw [if_pos (show String.mk ['-'] = "-" from rfl),
        if_pos (show (['-'] : List Char) = ['-'] from rfl)]

/-- `parseStat` on a rendered well-formed gauge line. -/
theorem parseStat_renderLine_gauge (st : AggregationState) (o n sg v : List Char)
    (sr : Option (List Char))
    (ho1 : o ≠ []) (ho2 : ∀ c ∈ o, c ≠ '.')
    (hn1 : n ≠ []) (hn2 : ∀ c ∈ n, c ≠ ':')
    (hs : sg = [] ∨ sg = ['+'] ∨ sg = ['-'])
    (hv : IsDecimal v)
    (hr : ∀ r, sr = some r → IsDecimal r) :
    parseStat st (String.mk (renderLine o n sg v ['g'] sr)) =
      (let key := String.mk o ++ "." ++ String.mk n
       let cv := parseDecimal v / (sr.map parseDecimal).getD 1
       let newVal := if sg = ['+'] then mapGet st.gaugeValues key + cv
                     else if sg = ['-'] then mapGet st.gaugeValues key - cv
                     else cv
       (Except.ok { origin := String.mk o,
                    valueMetric := { name := String.mk n, value := newVal,
                                     unit := "gauge" } },
        { st with gaugeValues := mapSet st.gaugeValues key newVal })) := by
  have hm := findMatch_renderLine o n sg v ['g'] sr ho1 ho2 hn1 hn2 hs hv
    (Or.inr (Or.inl rfl)) hr
  have hrate : (if (sr.getD []).isEmpty then (1 : ℚ) else parseDecimal (sr.getD []))
      = (sr.map parseDecimal).getD 1 := by
    cases sr with
    | none => rfl
    | some r => simp [List.isEmpty_eq_false.mpr (hr r rfl).ne_nil]
  unfold parseStat
  rw [show (String.mk (renderLine o n sg v ['g'] sr)).data
        = renderLine o n sg v ['g'] sr from rfl, hm]
  simp only [hrate]
  rw [if_neg (show ¬(String.mk ['g'] = "ms") by decide),
      if_neg (show ¬(String.mk ['g'] = "c") by decide)]
  simp only [gaugeValue]
  rcases hs with rfl | rfl | rfl
  · rw [if_neg (show ¬(String.mk [] = "+") by decide),
        if_neg (show ¬(String.mk [] = "-") by decide),
        if_neg (show ¬(([] : List Char) = ['+']) by decide),
        if_neg (show ¬(([] : List Char) = ['-']) by decide)]
  · rw [if_pos (show String.mk ['+'] = "+" from rfl),
        if_pos (show (['+'] : List Char) = ['+'] from rfl)]
  · rw [if_neg (show ¬(String.mk ['-'] = "+") by decide),
        if_pos (show String.mk ['-'] = "-" from rfl),
        if_neg (show ¬((['-'] : List Char) = ['+']) by decide),
        if_pos (show (['-'] : List Char) = ['-'] from rfl)]

/-- `parseStat` on a rendered well-formed timer (`ms`) line. -/
theorem parseStat_renderLine_ms (st : AggregationState) (o n sg v : List Char)
    (sr : Option (List Char))
    (ho1 : o ≠ []) (ho2 : ∀ c ∈ o, c ≠ '.')
    (hn1 : n ≠ []) (hn2 : ∀ c ∈ n, c ≠ ':')
    (hs : sg = [] ∨ sg = ['+'] ∨ sg = ['-'])
    (hv : IsDecimal v)
    (hr : ∀ r, sr = some r → IsDecimal r) :
    parseStat st (String.mk (renderLine o n sg v ['m', 's'] sr)) =
      (Except.ok { origin := String.mk o,
                   valueMetric := { name := String.mk n,
                                    value := parseDecimal v / (sr.map parseDecimal).getD 1,
                                    unit := "ms" } },
       st) := by
  have hm := findMatch_renderLine o n sg v ['m', 's'] sr ho1 ho2 hn1 hn2 hs hv
    (Or.inl rfl) hr
  have hrate : (if (sr.getD []).isEmpty then (1 : ℚ) else parseDecimal (sr.getD []))
      = (sr.map parseDecimal).getD 1 := by
    cases sr with
    | none => rfl
    | some r => simp [List.isEmpty_eq_false.mpr (hr r rfl).ne_nil]
  unfold parseStat
  rw [show (String.mk (renderLine o n sg v ['m', 's'] sr)).data
        = renderLine o n sg v ['m', 's'] sr from rfl, hm]
  simp only [hrate]
  rw [if_pos trivial]

/-- Reading a key just written returns the written value. -/
theorem mapGet_mapSet (m : List (String × ℚ)) (k : String) (v : ℚ) :
    mapGet (mapSet m k v) k = v := by
  induction m with
  | nil => simp [mapGet, mapSet, List.find?]
  | cons p rest ih =>
    by_cases h : p.1 = k
    · simp [mapGet, mapSet, h, List.find?]
    · simp only [mapSet, h, if_false]
      simp only [mapGet, List.find?] at ih ⊢
      simp [h, ih]

/-- The capture `1` parses to the rational `1`. -/
theorem parseDecimal_one : parseDecimal ['1'] = 1 := by with_unfolding_all decide

/-- While relaying, inbound frames are appended verbatim and in order. -/
theorem relayStep_frames (q : List RelayFrame) (bs : List Bytes) :
    (bs.map RelayEvent.frame).foldl relayStep
      { phase := RelayPhase.relaying, queue := q, retErr := none,
        stopTriggered := false, queueClosed := false }
      = { phase := RelayPhase.relaying, queue := q ++ bs.map RelayFrame.data,
          retErr := none, stopTriggered := false, queueClosed := false } := by
  induction bs generalizing q with
  | nil => simp
  | cons b bs ih =>
    simp only [List.map_cons, List.foldl_cons, relayStep]
    rw [ih]
    simp

/-- No relayed data frame counts as a diagnostic. -/
theorem countP_isLog_map_data (bs : List Bytes) :
    (bs.map RelayFrame.data).countP RelayFrame.isLog = 0 := by
  induction bs with
  | nil => rfl
  | cons b bs ih => simp [List.countP_cons, RelayFrame.isLog, ih]

/-! ## The claims -/

/-- Claim C1: for every well-formed counter line (type token `c`) with
composite key `origin.name` and prior stored counter value `v0` (0 when the
key is absent), decode emits unit `counter` and value `v0 - value/sampleRate`
when the sign is `-`, and `v0 + value/sampleRate` otherwise (sign `+` or
absent), and stores that same result back into the counter map under the
key. -/
theorem statsd_counter_line (st : AggregationState) (o n sg v : List Char)
    (sr : Option (List Char))
    (ho1 : o ≠ []) (ho2 : ∀ c ∈ o, c ≠ '.')
    (hn1 : n ≠ []) (hn2 : ∀ c ∈ n, c ≠ ':')
    (hs : sg = [] ∨ sg = ['+'] ∨ sg = ['-'])
    (hv : IsDecimal v)
    (hr : ∀ r, sr = some r → IsDecimal r) :
    let key := String.mk o ++ "." ++ String.mk n
    let v0 := mapGet st.counterValues key
    let cv := parseDecimal v / (sr.map parseDecimal).getD 1
    let newVal := if sg = ['-'] then v0 - cv else v0 + cv
    (parseStat st (String.mk (renderLine o n sg v ['c'] sr))).1
      = Except.ok { origin := String.mk o,
                    valueMetric := { name := String.mk n, value := newVal,
                                     unit := "counter" } }
    ∧ (parseStat st (String.mk (renderLine o n sg v ['c'] sr))).2
      = { st with counterValues := mapSet st.counterValues key newVal }
    ∧ mapGet (parseStat st (String.mk (renderLine o n sg v ['c'] sr))).2.counterValues key
      = newVal := by
  intro key v0 cv newVal
  have h := parseStat_renderLine_counter st o n sg v sr ho1 ho2 hn1 hn2 hs hv hr
  rw [h]
  exact ⟨rfl, rfl, mapGet_mapSet st.counterValues key newVal⟩

/-- Witness for C1: the line `a.b:-2|c|@0.5` against a state whose counter
for `a.b` is `10`. -/
theorem statsd_counter_line_witness :
    let key := String.mk ['a'] ++ "." ++ String.mk ['b']
    let v0 := mapGet (AggregationState.mk [] [("a.b", 10)]).counterValues key
    let cv := parseDecimal ['2'] / ((some ['0', '.', '5']).map parseDecimal).getD 1
    let newVal := if (['-'] : List Char) = ['-'] then v0 - cv else v0 + cv
    (parseStat (AggregationState.mk [] [("a.b", 10)])
        (String.mk (renderLine ['a'] ['b'] ['-'] ['2'] ['c'] (some ['0', '.', '5'])))).1
      = Except.ok { origin := String.mk ['a'],
                    valueMetric := { name := String.mk ['b'], value := newVal,
                                     unit := "counter" } }
    ∧ (parseStat (AggregationState.mk [] [("a.b", 10)])
        (String.mk (renderLine ['a'] ['b'] ['-'] ['2'] ['c'] (some ['0', '.', '5'])))).2
      = { AggregationState.mk [] [("a.b", 10)] with
          counterValues := mapSet (AggregationState.mk [] [("a.b", 10)]).counterValues key newVal }
    ∧ mapGet (parseStat (AggregationState.mk [] [("a.b", 10)])
        (String.mk (renderLine ['a'] ['b'] ['-'] ['2'] ['c'] (some ['0', '.', '5'])))).2.counterValues key
      = newVal :=
  statsd_counter_line (AggregationState.mk [] [("a.b", 10)]) ['a'] ['b'] ['-'] ['2']
    (some ['0', '.', '5']) (by decide) (by decide) (by decide) (by decide)
    (Or.inr (Or.inr rfl)) (Or.inl ⟨by decide, by decide⟩)
    (by rintro r hEq; cases hEq
        exact Or.inr ⟨['0'], ['5'], ⟨by decide, by decide⟩, ⟨by decide, by decide⟩, rfl⟩)

/-- Claim C2: for every well-formed gauge line with composite key
`origin.name` and prior stored gauge value `v0` (0 when the key is absent),
decode emits unit `gauge` and value `value/sampleRate` when no sign is
present (absolute replacement, irrespective of prior state),
`v0 + value/sampleRate` for sign `+`, and `v0 - value/sampleRate` for sign
`-`, and stores that same result back into the gauge map under the key. -/
theorem statsd_gauge_line (st : AggregationState) (o n sg v : List Char)
    (sr : Option (List Char))
    (ho1 : o ≠ []) (ho2 : ∀ c ∈ o, c ≠ '.')
    (hn1 : n ≠ []) (hn2 : ∀ c ∈ n, c ≠ ':')
    (hs : sg = [] ∨ sg = ['+'] ∨ sg = ['-'])
    (hv : IsDecimal v)
    (hr : ∀ r, sr = some r → IsDecimal r) :
    let key := String.mk o ++ "." ++ String.mk n
    let v0 := mapGet st.gaugeValues key
    let cv := parseDecimal v / (sr.map parseDecimal).getD 1
    let newVal := if sg = ['+'] then v0 + cv else if sg = ['-'] then v0 - cv else cv
    (parseStat st (String.mk (renderLine o n sg v ['g'] sr))).1
      = Except.ok { origin := String.mk o,
                    valueMetric := { name := String.mk n, value := newVal,
                                     unit := "gauge" } }
    ∧ (parseStat st (String.mk (renderLine o n sg v ['g'] sr))).2
      = { st with gaugeValues := mapSet st.gaugeValues key newVal }
    ∧ mapGet (parseStat st (String.mk (renderLine o n sg v ['g'] sr))).2.gaugeValues key
      = newVal := by
  intro key v0 cv newVal
  have h := parseStat_renderLine_gauge st o n sg v sr ho1 ho2 hn1 hn2 hs hv hr
  rw [h]
  exact ⟨rfl, rfl, mapGet_mapSet st.gaugeValues key newVal⟩

/-- Witness for C2: the unsigned line `a.b:3|g` against a state whose gauge
for `a.b` is `7` (the prior value is replaced). -/
theorem statsd_gauge_line_witness :
    let key := String.mk ['a'] ++ "." ++ String.mk ['b']
    let v0 := mapGet (AggregationState.mk [("a.b", 7)] []).gaugeValues key
    let cv := parseDecimal ['3'] / ((none : Option (List Char)).map parseDecimal).getD 1
    let newVal := if ([] : List Char) = ['+'] then v0 + cv
                  else if ([] : List Char) = ['-'] then v0 - cv else cv
    (parseStat (AggregationState.mk [("a.b", 7)] [])
        (String.mk (renderLine ['a'] ['b'] [] ['3'] ['g'] none))).1
      = Except.ok { origin := String.mk ['a'],
                    valueMetric := { name := String.mk ['b'], value := newVal,
                                     unit := "gauge" } }
    ∧ (parseStat (AggregationState.mk [("a.b", 7)] [])
        (String.mk (renderLine ['a'] ['b'] [] ['3'] ['g'] none))).2
      = { AggregationState.mk [("a.b", 7)] [] with
          gaugeValues := mapSet (AggregationState.mk [("a.b", 7)] []).gaugeValues key newVal }
    ∧ mapGet (parseStat (AggregationState.mk [("a.b", 7)] [])
        (String.mk (renderLine ['a'] ['b'] [] ['3'] ['g'] none))).2.gaugeValues key
      = newVal :=
  statsd_gauge_line (AggregationState.mk [("a.b", 7)] []) ['a'] ['b'] [] ['3'] none
    (by decide) (by decide) (by decide) (by decide) (Or.inl rfl)
    (Or.inl ⟨by decide, by decide⟩) (by rintro r hEq; cases hEq)

/-- Counterexample to claim C3: the line `a.b:1|x` is well-formed except
that its type token is `x`, yet decode returns a parse error instead of
treating the line as a gauge — the regexp's type field only matches `ms`,
`g` or `c`. -/
theorem statsd_unknown_type_counterexample :
    (parseStat emptyState ("a.b:1|x")).1
      = Except.error "Input line 'a.b:1|x' was not a valid statsd line." := rfl

/-- Claim C3, amended: a line whose type token is any token other than
`ms`, `g` or `c` fails the grammar and yields a parse error (the permissive
gauge default of the type switch is only reachable through the matched
token `g`); a token that merely extends one of the three (such as `gauge`)
is matched by its accepted prefix, with the remainder left as trailing
garbage, and is decoded accordingly. -/
theorem statsd_unknown_type_grammar :
    parseStat emptyState ("a.b:1|x")
      = (Except.error "Input line 'a.b:1|x' was not a valid statsd line.", emptyState)
    ∧ (parseStat emptyState ("a.b:1|gauge")).1
      = Except.ok { origin := "a", valueMetric := { name := "b", value := 1, unit := "gauge" } } := by
  constructor
  · rfl
  · with_unfolding_all decide

/-- Claim C4: every line that fails the grammar yields a parse error
carrying the offending line text, and leaves the aggregation state (both
maps) unchanged. -/
theorem statsd_malformed_line (st : AggregationState) (data : String)
    (h : findMatch data.data = none) :
    parseStat st data
      = (Except.error ("Input line '" ++ data ++ "' was not a valid statsd line."), st) := by
  unfold parseStat
  rw [h]

/-- Witness for C4: the line `not.a.valid.line`. -/
theorem statsd_malformed_line_witness :
    parseStat emptyState ("not.a.valid.line")
      = (Except.error ("Input line '" ++ "not.a.valid.line" ++ "' was not a valid statsd line."),
         emptyState) :=
  statsd_malformed_line emptyState ("not.a.valid.line") rfl

/-- Claim C5: when a read from the established relay connection fails for a
reason other than cancellation, exactly one diagnostic frame is pushed onto
the output queue — a log-record with source tag `LGR`, error severity and
the fixed proxy message — and the run then ends with no returned error,
while the stop signal remains untriggered and the output queue is not
closed.  (The relay listener is modelled from the spec; its implementation
is not among the sources here.) -/
theorem relay_read_error_emits_one_diagnostic (bs : List Bytes) :
    (relayStart (RelayEvent.dialOk :: (bs.map RelayEvent.frame ++ [RelayEvent.readErr]))).queue
      = bs.map RelayFrame.data ++ [RelayFrame.log errorDiagnostic]
    ∧ (relayStart (RelayEvent.dialOk :: (bs.map RelayEvent.frame ++ [RelayEvent.readErr]))).queue.countP
        RelayFrame.isLog = 1
    ∧ errorDiagnostic.sourceName = "LGR"
    ∧ errorDiagnostic.severity = Severity.err
    ∧ errorDiagnostic.message = "proxy: error connecting to a loggregator server"
    ∧ (relayStart (RelayEvent.dialOk :: (bs.map RelayEvent.frame ++ [RelayEvent.readErr]))).retErr = none
    ∧ (relayStart (RelayEvent.dialOk :: (bs.map RelayEvent.frame ++ [RelayEvent.readErr]))).phase
        = RelayPhase.failed
    ∧ (relayStart (RelayEvent.dialOk :: (bs.map RelayEvent.frame ++ [RelayEvent.readErr]))).stopTriggered
        = false
    ∧ (relayStart (RelayEvent.dialOk :: (bs.map RelayEvent.frame ++ [RelayEvent.readErr]))).queueClosed
        = false := by
  have hfin : relayStart (RelayEvent.dialOk :: (bs.map RelayEvent.frame ++ [RelayEvent.readErr]))
      = { phase := RelayPhase.failed,
          queue := bs.map RelayFrame.data ++ [RelayFrame.log errorDiagnostic],
          retErr := none, stopTriggered := false, queueClosed := false } := by
    unfold relayStart
    rw [List.foldl_cons, List.foldl_append]
    have h1 : relayStep relayInit RelayEvent.dialOk
        = { phase := RelayPhase.relaying, queue := [], retErr := none,
            stopTriggered := false, queueClosed := false } := rfl
    rw [h1, relayStep_frames]
    simp [relayStep]
  refine ⟨?_, ?_, rfl, rfl, rfl, ?_, ?_, ?_, ?_⟩ <;>
    simp [hfin, List.countP_append, List.countP_cons, RelayFrame.isLog,
      countP_isLog_map_data]

/-- Claim C6: a well-formed line with no sample-rate field decodes exactly
as the same line with the explicit suffix `|@1` appended — same envelope,
same state update. -/
theorem statsd_sample_rate_default (st : AggregationState) (o n sg v ty : List Char)
    (ho1 : o ≠ []) (ho2 : ∀ c ∈ o, c ≠ '.')
    (hn1 : n ≠ []) (hn2 : ∀ c ∈ n, c ≠ ':')
    (hs : sg = [] ∨ sg = ['+'] ∨ sg = ['-'])
    (hv : IsDecimal v)
    (hty : ty = ['m', 's'] ∨ ty = ['g'] ∨ ty = ['c']) :
    parseStat st (String.mk (renderLine o n sg v ty none))
      = parseStat st (String.mk (renderLine o n sg v ty (some ['1']))) := by
  have hrn : ∀ r, (none : Option (List Char)) = some r → IsDecimal r :=
    fun r h => nomatch h
  have hr1 : ∀ r, (some ['1'] : Option (List Char)) = some r → IsDecimal r := by
    rintro r hEq; cases hEq; exact Or.inl ⟨by decide, by decide⟩
  rcases hty with rfl | rfl | rfl
  · rw [parseStat_renderLine_ms st o n sg v none ho1 ho2 hn1 hn2 hs hv hrn,
        parseStat_renderLine_ms st o n sg v (some ['1']) ho1 ho2 hn1 hn2 hs hv hr1]
    simp [parseDecimal_one]
  · rw [parseStat_renderLine_gauge st o n sg v none ho1 ho2 hn1 hn2 hs hv hrn,
        parseStat_renderLine_gauge st o n sg v (some ['1']) ho1 ho2 hn1 hn2 hs hv hr1]
    simp [parseDecimal_one]
  · rw [parseStat_renderLine_counter st o n sg v none ho1 ho2 hn1 hn2 hs hv hrn,
        parseStat_renderLine_counter st o n sg v (some ['1']) ho1 ho2 hn1 hn2 hs hv hr1]
    simp [parseDecimal_one]

/-- Witness for C6: `a.b:1|c` decodes exactly as `a.b:1|c|@1`. -/
theorem statsd_sample_rate_default_witness :
    parseStat emptyState (String.mk (renderLine ['a'] ['b'] [] ['1'] ['c'] none))
      = parseStat emptyState (String.mk (renderLine ['a'] ['b'] [] ['1'] ['c'] (some ['1']))) :=
  statsd_sample_rate_default emptyState ['a'] ['b'] [] ['1'] ['c'] (by decide) (by decide)
    (by decide) (by decide) (Or.inl rfl) (Or.inl ⟨by decide, by decide⟩)
    (Or.inr (Or.inr rfl))

/-- Claim C7: every well-formed `ms` line decodes to unit `ms` with the
sample-rate-corrected raw value, and leaves both the counter map and the
gauge map unchanged. -/
theorem statsd_ms_line (st : AggregationState) (o n sg v : List Char)
    (sr : Option (List Char))
    (ho1 : o ≠ []) (ho2 : ∀ c ∈ o, c ≠ '.')
    (hn1 : n ≠ []) (hn2 : ∀ c ∈ n, c ≠ ':')
    (hs : sg = [] ∨ sg = ['+'] ∨ sg = ['-'])
    (hv : IsDecimal v)
    (hr : ∀ r, sr = some r → IsDecimal r) :
    (parseStat st (String.mk (renderLine o n sg v ['m', 's'] sr))).1
      = Except.ok { origin := String.mk o,
                    valueMetric := { name := String.mk n,
                                     value := parseDecimal v / (sr.map parseDecimal).getD 1,
                                     unit := "ms" } }
    ∧ (parseStat st (String.mk (renderLine o n sg v ['m', 's'] sr))).2.counterValues
      = st.counterValues
    ∧ (parseStat st (String.mk (renderLine o n sg v ['m', 's'] sr))).2.gaugeValues
      = st.gaugeValues := by
  have h := parseStat_renderLine_ms st o n sg v sr ho1 ho2 hn1 hn2 hs hv hr
  rw [h]
  exact ⟨rfl, rfl, rfl⟩

/-- Witness for C7: the line `a.b:+23.4|ms|@0.5` against a nonempty state,
which it leaves unchanged. -/
theorem statsd_ms_line_witness :
    (parseStat (AggregationState.mk [("x", 1)] [("y", 2)])
        (String.mk (renderLine ['a'] ['b'] ['+'] ['2', '3', '.', '4'] ['m', 's']
          (some ['0', '.', '5'])))).1
      = Except.ok { origin := String.mk ['a'],
                    valueMetric := { name := String.mk ['b'],
                                     value := parseDecimal ['2', '3', '.', '4']
                                       / ((some ['0', '.', '5']).map parseDecimal).getD 1,
                                     unit := "ms" } }
    ∧ (parseStat (AggregationState.mk [("x", 1)] [("y", 2)])
        (String.mk (renderLine ['a'] ['b'] ['+'] ['2', '3', '.', '4'] ['m', 's']
          (some ['0', '.', '5'])))).2.counterValues
      = (AggregationState.mk [("x", 1)] [("y", 2)]).counterValues
    ∧ (parseStat (AggregationState.mk [("x", 1)] [("y", 2)])
        (String.mk (renderLine ['a'] ['b'] ['+'] ['2', '3', '.', '4'] ['m', 's']
          (some ['0', '.', '5'])))).2.gaugeValues
      = (AggregationState.mk [("x", 1)] [("y", 2)]).gaugeValues :=
  statsd_ms_line (AggregationState.mk [("x", 1)] [("y", 2)]) ['a'] ['b'] ['+']
    ['2', '3', '.', '4'] (some ['0', '.', '5']) (by decide) (by decide) (by decide)
    (by decide) (Or.inr (Or.inl rfl))
    (Or.inr ⟨['2', '3'], ['4'], ⟨by decide, by decide⟩, ⟨by decide, by decide⟩, rfl⟩)
    (by rintro r hEq; cases hEq
        exact Or.inr ⟨['0'], ['5'], ⟨by decide, by decide⟩, ⟨by decide, by decide⟩, rfl⟩)

/-- Claim C8: the read loop splits each received datagram into
newline-delimited lines processed in order — each successfully decoded line
contributes exactly one envelope to the output queue in line order, each
failing line is skipped without stopping the remaining lines, and the
envelopes of two successive datagrams appear in datagram order. -/
theorem statsd_run_order (st st1 st2 : AggregationState) (l1 l2 d1 d2 : String)
    (ls : List String) (env : Envelope) (st1' st2' : AggregationState) (e : String)
    (hok : parseStat st1 l1 = (Except.ok env, st1'))
    (herr : parseStat st2 l2 = (Except.error e, st2')) :
    handleDatagram st d1 = processLines st ((scanLines d1.data).map String.mk)
    ∧ processLines st1 (l1 :: ls)
      = (env :: (processLines st1' ls).1, (processLines st1' ls).2)
    ∧ processLines st2 (l2 :: ls) = processLines st2' ls
    ∧ runDatagrams st [d1, d2]
      = ((handleDatagram st d1).1 ++ (handleDatagram (handleDatagram st d1).2 d2).1,
         (handleDatagram (handleDatagram st d1).2 d2).2) := by
  refine ⟨rfl, ?_, ?_, ?_⟩
  · simp only [processLines]
    rw [hok]
  · simp only [processLines]
    rw [herr]
  · simp [runDatagrams]

/-- Witness for C8: a datagram holding a good and a bad line, followed by a
second datagram. -/
theorem statsd_run_order_witness :
    handleDatagram emptyState ("a.b:1|c\nnot.a.valid.line")
      = processLines emptyState ((scanLines ("a.b:1|c\nnot.a.valid.line").data).map String.mk)
    ∧ processLines emptyState (("a.b:1|c") :: [("a.b:1|g")])
      = ({ origin := "a", valueMetric := { name := "b", value := 1, unit := "counter" } }
           :: (processLines (AggregationState.mk [] [("a.b", 1)]) [("a.b:1|g")]).1,
         (processLines (AggregationState.mk [] [("a.b", 1)]) [("a.b:1|g")]).2)
    ∧ processLines emptyState (("not.a.valid.line") :: [("a.b:1|g")])
      = processLines emptyState [("a.b:1|g")]
    ∧ runDatagrams emptyState [("a.b:1|c\nnot.a.valid.line"), ("a.b:2|g")]
      = ((handleDatagram emptyState ("a.b:1|c\nnot.a.valid.line")).1
           ++ (handleDatagram (handleDatagram emptyState ("a.b:1|c\nnot.a.valid.line")).2
                ("a.b:2|g")).1,
         (handleDatagram (handleDatagram emptyState ("a.b:1|c\nnot.a.valid.line")).2
            ("a.b:2|g")).2) :=
  statsd_run_order emptyState emptyState emptyState ("a.b:1|c") ("not.a.valid.line")
    ("a.b:1|c\nnot.a.valid.line") ("a.b:2|g") [("a.b:1|g")]
    { origin := "a", valueMetric := { name := "b", value := 1, unit := "counter" } }
    (AggregationState.mk [] [("a.b", 1)]) emptyState
    ("Input line 'not.a.valid.line' was not a valid statsd line.")
    (by with_unfolding_all decide) rfl

/-- Counterexample to claim C9: the line `a.b:1|c|@0`, whose sample rate 0
lies outside `(0, 1]`, is not rejected — decode succeeds (and the source
divides the value by zero). -/
theorem statsd_sample_rate_zero_accepted :
    (parseStat emptyState ("a.b:1|c|@0")).1.isOk = true := by
  with_unfolding_all decide

/-- Claim C9, amended: the grammar accepts any decimal sample-rate field
and the decoder divides by it without validating membership in `(0, 1]`:
`|@0` is accepted (dividing by zero), and rates above 1 such as `|@2` are
accepted and applied. -/
theorem statsd_sample_rate_unvalidated :
    (parseStat emptyState ("a.b:1|c|@0")).1.isOk = true
    ∧ parseStat emptyState ("a.b:4|ms|@2")
      = (Except.ok { origin := "a", valueMetric := { name := "b", value := 2, unit := "ms" } },
         emptyState)
    ∧ parseStat emptyState ("a.b:1|c|@0.5")
      = (Except.ok { origin := "a", valueMetric := { name := "b", value := 2, unit := "counter" } },
         AggregationState.mk [] [("a.b", 2)]) := by
  refine ⟨?_, ?_, ?_⟩
  · with_unfolding_all decide
  · with_unfolding_all decide
  · with_unfolding_all decide

/-- Claim C10: decode accepts an input that merely contains a grammar match
as a substring — a valid stat followed by trailing garbage (after the type
token, or after the sample-rate field) decodes from the matched portion
instead of returning a parse error. -/
theorem statsd_substring_match :
    parseStat emptyState ("a.b:1|cxyz")
      = (Except.ok { origin := "a", valueMetric := { name := "b", value := 1, unit := "counter" } },
         AggregationState.mk [] [("a.b", 1)])
    ∧ parseStat emptyState ("a.b:1|c|@0.5zz")
      = (Except.ok { origin := "a", valueMetric := { name := "b", value := 2, unit := "counter" } },
         AggregationState.mk [] [("a.b", 2)]) := by
  constructor
  · with_unfolding_all decide
  · with_unfolding_all decide
